import Mathlib

set_option maxRecDepth 100000

/-!
# Verification of the `pcie` bus enumerator and BAR allocator

A shallow embedding of the repository's enumeration state machine
(`src/root.rs`), BAR parsing (`src/types/bar.rs`), BAR allocator
(`src/bar_alloc.rs`) and endpoint BAR reprogramming
(`src/types/config/endpoint.rs`), together with theorems settling the
specification claims.

Machine integers (`u8`, `u16`, `u32`, `u64`) are embedded as `Nat` with
explicit `% 2^w` at the points where the source truncates.  Configuration
space is a total function from `(address, byte offset)` to 32-bit words;
writes produce an updated function.  Rust panics (`unwrap`, `todo!`,
`panic!`) are modelled as explicit outcomes.
-/

/-- `PciAddress`: segment / bus / device / function (pci_types). -/
structure PciAddress where
  segment : Nat
  bus : Nat
  device : Nat
  function : Nat
deriving DecidableEq, Repr

/-- Configuration space contents: 32-bit word read at `(address, byte offset)`.
This embeds the `ConfigRegionAccess`/`Controller` read operation. -/
def Cfg : Type := PciAddress → Nat → Nat

/-- Configuration-space write: pointwise function update. -/
def writeCfg (c : Cfg) (a : PciAddress) (off v : Nat) : Cfg :=
  fun a2 o2 => if a2 = a ∧ o2 = off then v else c a2 o2

/-- `vendor_id`: low 16 bits of the word at offset 0.
Modelled from the spec: §3 HeaderCommon / §6 wire offsets (the `pci_types`
crate and the repository's `config` module holding `PciHeaderBase` are not
under `src/`). -/
def vendorId (c : Cfg) (a : PciAddress) : Nat := c a 0x00 % 65536

/-- Low 7 bits of the header-type byte (byte 0x0E = bits 16..23 of the word
at offset 0x0C).  Modelled from the spec: §3 HeaderKind. -/
def headerTypeBits (c : Cfg) (a : PciAddress) : Nat :=
  c a 0x0C / 2 ^ 16 % 2 ^ 7

/-- Bit 7 of the header-type byte. Modelled from the spec: §3 HeaderKind
("Bit 7 of that byte is `has_multiple_functions`"). -/
def hasMultipleFunctions (c : Cfg) (a : PciAddress) : Bool :=
  c a 0x0C / 2 ^ 23 % 2 = 1

/-- `pci_types::HeaderType`, tagged on the low 7 bits of the header-type
byte.  Modelled from the spec: §3 HeaderKind
(`Endpoint 0x00 | PciPciBridge 0x01 | CardBusBridge 0x02 | Unknown`). -/
inductive HeaderKind where
  | endpoint
  | pciPciBridge
  | cardBusBridge
  | unknown (v : Nat)
deriving DecidableEq, Repr

def headerKindOf (c : Cfg) (a : PciAddress) : HeaderKind :=
  let b := headerTypeBits c a
  if b = 0 then .endpoint
  else if b = 1 then .pciPciBridge
  else if b = 2 then .cardBusBridge
  else .unknown b

/-- The bus-number triple held at the three low bytes of the word at
offset 0x18 of a Type-1 header (`BusNumber` in `src/types/mod.rs`). -/
structure BusNumber where
  primary : Nat
  secondary : Nat
  subordinate : Nat
deriving DecidableEq, Repr

/-- Decode bits 0..8 / 8..16 / 16..24 of the 0x18 word. -/
def decodeBus (w : Nat) : BusNumber :=
  ⟨w % 256, w / 256 % 256, w / 65536 % 256⟩

/-- Re-encode a triple into the 0x18 word, preserving bits 24..32 (the
secondary latency timer), as `update_bus_number` in `src/types/mod.rs`
does with `set_bits`. -/
def encodeBus (w : Nat) (b : BusNumber) : Nat :=
  w / 2 ^ 24 * 2 ^ 24 + b.subordinate % 256 * 65536 +
    b.secondary % 256 * 256 + b.primary % 256

/-- The `config::PciPciBridge` value kept in an enumeration stack frame.
Modelled from the spec: the repository's `config` module (the
`types/config/mod.rs` holding `PciHeaderBase` and this type) is not under
`src/`; per §3 the root frame is synthetic, and per §4.4 the bus-number
triple of a real bridge lives at offset 0x18 of its header, so a real
bridge (`address = some a`) reads and writes the triple through
configuration space while the synthetic root (`address = none`,
constructed by the parameterless `config::PciPciBridge::root()`) holds a
cached triple. -/
structure CfgBridge where
  address : Option PciAddress
  rootBus : BusNumber
deriving DecidableEq, Repr

/-- Current triple of a bridge: hardware read at 0x18 for a real bridge,
the cached triple for the synthetic root. -/
def CfgBridge.busNumber (b : CfgBridge) (c : Cfg) : BusNumber :=
  match b.address with
  | some a => decodeBus (c a 0x18)
  | none => b.rootBus

/-- `update_bus_number(f)`: read-modify-write of the 0x18 word for a real
bridge (as in `src/types/mod.rs`), cached update for the synthetic root. -/
def CfgBridge.updateBusNumber (b : CfgBridge) (f : BusNumber → BusNumber)
    (c : Cfg) : CfgBridge × Cfg :=
  match b.address with
  | some a => (b, writeCfg c a 0x18 (encodeBus (c a 0x18) (f (decodeBus (c a 0x18)))))
  | none => ({ b with rootBus := f b.rootBus }, c)

/-- `config::PciPciBridge::root()`: parameterless synthetic root bridge.
Modelled from the spec: it takes no bus argument, so its triple is the
zero triple (the spec's `secondary = subordinate = bus_start` is
representable only for `bus_start = 0`). -/
def CfgBridge.rootBridge : CfgBridge := ⟨none, ⟨0, 0, 0⟩⟩

def MAX_DEVICE : Nat := 31
def MAX_FUNCTION : Nat := 7

/-- A stack frame: `struct Bridge { bridge, device }` in `src/root.rs`. -/
structure Frame where
  bridge : CfgBridge
  device : Nat
deriving DecidableEq, Repr

/-- `Bridge::root(bus_start)` in `src/root.rs` (lines 526-533): note that
the source stores `bus_start` in the `device` cursor field. -/
def Frame.root (busStart : Nat) : Frame :=
  ⟨CfgBridge.rootBridge, busStart⟩

/-- The `PciIterator` state (`src/root.rs`).  The stack is kept with the
top frame (`Vec::last`) at the head of the list.  The `do_allocate = false`
(`enumerate_keep_bar`) path is embedded: endpoints are yielded without BAR
reprogramming, so configuraton space is written only at bridge 0x18 words. -/
structure EngineState where
  cfg : Cfg
  segment : Nat
  stack : List Frame
  busMax : Nat
  function : Nat
  isMultipleFunction : Bool
  isFinish : Bool

/-- `PciIterator::address`: bus is the top frame's secondary bus number,
device is its cursor.  The source `unwrap`s the top frame; the empty-stack
case (unreachable while the iterator is live) is given a default. -/
def EngineState.address (st : EngineState) : PciAddress :=
  match st.stack with
  | f :: _ => ⟨st.segment, (f.bridge.busNumber st.cfg).secondary, f.device, st.function⟩
  | [] => ⟨st.segment, 0, 0, st.function⟩

/-- Outcome of `get_current_valid`: the `PciConfigSpace` value, or a panic
(`todo!()` for CardBus/Unknown headers, `panic!("no parent")`). -/
inductive ProbeResult where
  | endpoint (a : PciAddress)
  | bridge (b : CfgBridge)
  | panicked
deriving Repr

/-- `PciIterator::get_current_valid` (`src/root.rs` lines 135-178).
`PciHeaderBase::new` (modelled from the spec: absent when
`vendor_id == 0xFFFF`, §3/§6) guards the probe; the multi-function flag is
latched on every successful probe (line 138); a bridge is refused when the
parent's subordinate equals `bus_max`, and otherwise has its triple
programmed to `(current bus, parent.sub + 1, parent.sub + 1)`. -/
def getCurrentValid (st : EngineState) : Option ProbeResult × EngineState :=
  let a := st.address
  if vendorId st.cfg a = 0xFFFF then (none, st)
  else
    let st1 := { st with isMultipleFunction := hasMultipleFunctions st.cfg a }
    match headerKindOf st1.cfg a with
    | .endpoint => (some (.endpoint a), st1)
    | .pciPciBridge =>
      match st1.stack with
      | [] => (some .panicked, st1)
      | parent :: _ =>
        let pb := parent.bridge.busNumber st1.cfg
        if pb.subordinate = st1.busMax then (none, st1)
        else
          let secondary := pb.subordinate + 1
          let b0 : CfgBridge := ⟨some a, ⟨0, 0, 0⟩⟩
          let r := b0.updateBusNumber (fun _ => ⟨a.bus, secondary, secondary⟩) st1.cfg
          (some (.bridge r.1), { st1 with cfg := r.2 })
    | .cardBusBridge => (some .panicked, st1)
    | .unknown _ => (some .panicked, st1)

/-- `PciIterator::is_next_function_max` (lines 189-202): returns `true` on
carry into the device counter. -/
def isNextFunctionMax (st : EngineState) : EngineState × Bool :=
  if st.isMultipleFunction then
    if st.function = MAX_FUNCTION then ({ st with function := 0 }, true)
    else ({ st with function := st.function + 1 }, false)
  else ({ st with function := 0 }, true)

/-- One call of `PciIterator::next_device_not_ok` (lines 204-225). -/
def nextDeviceNotOk (st : EngineState) : EngineState × Bool :=
  match st.stack with
  | [] => ({ st with isFinish := true }, false)
  | top :: rest =>
    if top.device = MAX_DEVICE then
      ({ st with stack := rest,
                 isFinish := (top.bridge.busNumber st.cfg).subordinate = st.busMax,
                 function := 0 }, true)
    else
      ({ st with stack := { top with device := top.device + 1 } :: rest }, false)

/-- The body of `while self.next_device_not_ok() {}`, driven by explicit
fuel (structural recursion, so that concrete runs compute): every `true`
return of `next_device_not_ok` pops a frame, so `stack.length + 1` fuel
always suffices and the out-of-fuel branch is unreachable. -/
def popLoopFuel : Nat → EngineState → EngineState
  | 0, st => st
  | fuel + 1, st =>
    match st.stack with
    | [] => { st with isFinish := true }
    | top :: rest =>
      if top.device = MAX_DEVICE then
        popLoopFuel fuel
          { st with stack := rest,
                    isFinish := (top.bridge.busNumber st.cfg).subordinate = st.busMax,
                    function := 0 }
      else
        { st with stack := { top with device := top.device + 1 } :: rest }

/-- The `while self.next_device_not_ok() {}` loop, inlined. -/
def popLoop (st : EngineState) : EngineState :=
  popLoopFuel (st.stack.length + 1) st

/-- The ancestor loop in `PciIterator::next` (lines 229-236):
`subordinate += 1` on every frame already on the stack, threading the
configuration space through the read-modify-writes. -/
def bumpFrames : List Frame → Cfg → List Frame × Cfg
  | [], c => ([], c)
  | f :: rest, c =>
    let r := f.bridge.updateBusNumber
      (fun bus => { bus with subordinate := bus.subordinate + 1 }) c
    let r2 := bumpFrames rest r.2
    ({ f with bridge := r.1 } :: r2.1, r2.2)

/-- `PciIterator::next(current_bridge)` (lines 227-249): on a bridge,
expand every ancestor's subordinate window, push the new frame with device
cursor 0 and reset the function; otherwise advance the function and, on
carry, run the device/pop loop. -/
def stepNext (bridgeOpt : Option CfgBridge) (st : EngineState) : EngineState :=
  match bridgeOpt with
  | some b =>
    let r := bumpFrames st.stack st.cfg
    { st with cfg := r.2, stack := ⟨b, 0⟩ :: r.1, function := 0 }
  | none =>
    let r := isNextFunctionMax st
    if r.2 then popLoop r.1 else r.1

/-- Outcome of one iteration of the `while !self.is_finish` loop in
`Iterator::next` (lines 113-131). -/
inductive StepOut where
  | yielded (a : PciAddress)
  | skipped
  | panicked
deriving DecidableEq, Repr

/-- One iteration of the loop body of `Iterator for PciIterator::next`:
a bridge is descended into without yielding, an endpoint is yielded after
the cursor advances, an absent probe is skipped. -/
def engineStep (st : EngineState) : StepOut × EngineState :=
  match getCurrentValid st with
  | (some (.endpoint a), st') => (.yielded a, stepNext none st')
  | (some (.bridge b), st') => (.skipped, stepNext (some b) st')
  | (some .panicked, st') => (.panicked, st')
  | (none, st') => (.skipped, stepNext none st')

/-- Drive the iterator to completion with explicit fuel, collecting the
addresses of yielded endpoint descriptors.  The third component is `true`
iff the run panicked. -/
def run : Nat → EngineState → List PciAddress × EngineState × Bool
  | 0, st => ([], st, false)
  | fuel + 1, st =>
    if st.isFinish then ([], st, false)
    else
      match engineStep st with
      | (.yielded a, st') =>
        let r := run fuel st'
        (a :: r.1, r.2)
      | (.skipped, st') => run fuel st'
      | (.panicked, st') => ([], st', true)

/-- `RootComplex::__enumerate` initial state (`src/root.rs` lines 42-55):
segment 0, function 0, multi-function flag false, one synthetic root
frame; for `range = start..end`, `bus_max = end - 1` and the root frame is
`Bridge::root(start)`. -/
def initState (c : Cfg) (busStart busMax : Nat) : EngineState :=
  ⟨c, 0, [Frame.root busStart], busMax, 0, false, false⟩

/-! ## BAR data model and `parse_bar` (`src/types/bar.rs`) -/

/-- `pci_types::Bar`, the decoded value of one BAR slot (§3 of the spec). -/
inductive PBar where
  | mem32 (address size : Nat) (prefetchable : Bool)
  | mem64 (address size : Nat) (prefetchable : Bool)
  | io (port : Nat)
deriving DecidableEq, Repr

/-- `Bar32` in `src/types/bar.rs`. -/
structure Bar32 where
  address : Nat
  size : Nat
  prefetchable : Bool
deriving DecidableEq, Repr

/-- `Bar64` in `src/types/bar.rs`. -/
structure Bar64 where
  address : Nat
  size : Nat
  prefetchable : Bool
deriving DecidableEq, Repr

/-- `BarIo` in `src/types/bar.rs`. -/
structure BarIo where
  port : Nat
deriving DecidableEq, Repr

/-- The `if let Some(Bar::Memory32 {..}) = read_bar(i)` filter in the
`Memory32` arm of `parse_bar`. -/
def toBar32 : Option PBar → Option Bar32
  | some (.mem32 a s p) => some ⟨a, s, p⟩
  | _ => none

/-- The `if let Some(Bar::Memory64 {..}) = read_bar(i * 2)` filter in the
`Memory64` arm of `parse_bar`. -/
def toBar64 : Option PBar → Option Bar64
  | some (.mem64 a s p) => some ⟨a, s, p⟩
  | _ => none

/-- The `if let Some(Bar::Io {..}) = read_bar(i)` filter in the `Io` arm
of `parse_bar`. -/
def toIoBar : Option PBar → Option BarIo
  | some (.io p) => some ⟨p⟩
  | _ => none

/-- `BarVec`, without the dispatch address/header-kind bookkeeping fields
(they do not affect parsing). -/
inductive BarVecM where
  | memory32 (data : List (Option Bar32))
  | memory64 (data : List (Option Bar64))
  | io (data : List (Option BarIo))
deriving DecidableEq, Repr

/-- `BarHeader::parse_bar` (`src/types/bar.rs` lines 42-138), parametric
over `read_bar` (whose BAR-sizing protocol lives in the external
`pci_types` crate).  Slot 0 fixes the shape: `None` gives the empty 32-bit
vector; a 32-bit or I/O first BAR gives `slot_size` entries read from
slots `1..slot_size`; a 64-bit first BAR gives `slot_size / 2` entries
read from slots `2*i`.  Entries whose slot does not decode to the same
kind stay `None`. -/
def parseBar (readBar : Nat → Option PBar) (slotSize : Nat) : BarVecM :=
  match readBar 0 with
  | none => .memory32 []
  | some (.mem32 address size pref) =>
    .memory32 ((List.range slotSize).map (fun i =>
      if i = 0 then some ⟨address, size, pref⟩ else toBar32 (readBar i)))
  | some (.mem64 address size pref) =>
    .memory64 ((List.range (slotSize / 2)).map (fun i =>
      if i = 0 then some ⟨address, size, pref⟩ else toBar64 (readBar (i * 2))))
  | some (.io port) =>
    .io ((List.range slotSize).map (fun i =>
      if i = 0 then some ⟨port⟩ else toIoBar (readBar i)))

/-! ## Address allocator and `SimpleBarAllocator` (`src/bar_alloc.rs`) -/

/-- Round `n` up to a multiple of `align`. -/
def alignUp (n align : Nat) : Nat :=
  if align = 0 then n else (n + align - 1) / align * align

/-- Power-of-two test. -/
def isPow2 (n : Nat) : Bool :=
  decide (n ≠ 0) && decide (n &&& (n - 1) = 0)

/-- `AddressAllocator`.  Modelled from the spec: `src/addr_alloc.rs` is
not under `src/`; per §4.2 it is a first-fit range allocator whose free
space is a sorted list of non-overlapping half-open intervals; allocation
takes the lowest free subrange of the requested length starting at a
multiple of `alignment` and splits the interval it came from. -/
structure AddressAllocator where
  freeRanges : List (Nat × Nat)
deriving DecidableEq, Repr

/-- `AddressAllocator::new(base, size)`; fails on an empty window.
Modelled from the spec (§4.2: `size` must be non-zero). -/
def AddressAllocator.new (base size : Nat) : Option AddressAllocator :=
  if size = 0 then none else some ⟨[(base, base + size)]⟩

/-- First-fit search over the free list.  Modelled from the spec (§4.2,
`FirstMatch` policy): returns the aligned start and the updated free list. -/
def allocFirstFit : List (Nat × Nat) → Nat → Nat → Option (Nat × List (Nat × Nat))
  | [], _, _ => none
  | (lo, hi) :: rest, size, align =>
    let a := alignUp lo align
    if a + size ≤ hi then
      some (a, (if lo < a then [(lo, a)] else []) ++
               (if a + size < hi then [(a + size, hi)] else []) ++ rest)
    else
      match allocFirstFit rest size align with
      | some r => some (r.1, (lo, hi) :: r.2)
      | none => none

/-- `allocate(size, alignment, FirstMatch)`.  Modelled from the spec
(§4.2): errors (`OutOfSpace`, zero size, non-power-of-two alignment) are
collapsed to `none`, as every call site discards the error through
`.ok()?`. -/
def AddressAllocator.allocate (al : AddressAllocator) (size align : Nat) :
    Option (Nat × AddressAllocator) :=
  if size = 0 then none
  else if ¬ isPow2 align then none
  else
    match allocFirstFit al.freeRanges size align with
    | some r => some (r.1, ⟨r.2⟩)
    | none => none

/-- `SimpleBarAllocator` (`src/bar_alloc.rs`): four optional windows. -/
structure SimpleBarAllocator where
  mem32 : Option AddressAllocator
  mem64 : Option AddressAllocator
  mem32Pref : Option AddressAllocator
  mem64Pref : Option AddressAllocator
deriving DecidableEq, Repr

/-- `Default::default()`: no windows installed. -/
def SimpleBarAllocator.empty : SimpleBarAllocator := ⟨none, none, none, none⟩

/-- `set_mem32` (lines 18-26): install a 32-bit window in the
prefetchable or non-prefetchable slot. -/
def SimpleBarAllocator.setMem32 (s : SimpleBarAllocator)
    (address size : Nat) (prefetchable : Bool) : Option SimpleBarAllocator :=
  match AddressAllocator.new address size with
  | none => none
  | some a =>
    some (if prefetchable then { s with mem32Pref := some a }
          else { s with mem32 := some a })

/-- `set_mem64` (lines 29-37). -/
def SimpleBarAllocator.setMem64 (s : SimpleBarAllocator)
    (address size : Nat) (prefetchable : Bool) : Option SimpleBarAllocator :=
  match AddressAllocator.new address size with
  | none => none
  | some a =>
    some (if prefetchable then { s with mem64Pref := some a }
          else { s with mem64 := some a })

/-- `alloc_memory32` (lines 39-46): non-prefetchable 32-bit window only;
`res.start() as u32`. -/
def SimpleBarAllocator.allocMemory32 (s : SimpleBarAllocator) (size : Nat) :
    Option (Nat × SimpleBarAllocator) :=
  match s.mem32 with
  | none => none
  | some al =>
    match al.allocate size size with
    | none => none
    | some r => some (r.1 % 2 ^ 32, { s with mem32 := some r.2 })

/-- `alloc_memory64` (lines 48-55): non-prefetchable 64-bit window only. -/
def SimpleBarAllocator.allocMemory64 (s : SimpleBarAllocator) (size : Nat) :
    Option (Nat × SimpleBarAllocator) :=
  match s.mem64 with
  | none => none
  | some al =>
    match al.allocate size size with
    | none => none
    | some r => some (r.1 % 2 ^ 64, { s with mem64 := some r.2 })

/-- `alloc_memory32_with_pref` (lines 58-69).  When `prefetchable` holds
and the prefetchable window exists, its failure propagates through
`.ok()?` without falling back; the non-prefetchable window is used only
when `prefetchable` is false or no prefetchable window is installed. -/
def SimpleBarAllocator.allocMemory32WithPref (s : SimpleBarAllocator)
    (size : Nat) (prefetchable : Bool) : Option (Nat × SimpleBarAllocator) :=
  if prefetchable then
    match s.mem32Pref with
    | some al =>
      match al.allocate size size with
      | none => none
      | some r => some (r.1 % 2 ^ 32, { s with mem32Pref := some r.2 })
    | none => s.allocMemory32 size
  else s.allocMemory32 size

/-- `alloc_memory64_with_pref` (lines 72-83): identical policy with the
64-bit windows; the only fallback is from the missing prefetchable window
to `alloc_memory64`.  There is no 32-bit fallback here. -/
def SimpleBarAllocator.allocMemory64WithPref (s : SimpleBarAllocator)
    (size : Nat) (prefetchable : Bool) : Option (Nat × SimpleBarAllocator) :=
  if prefetchable then
    match s.mem64Pref with
    | some al =>
      match al.allocate size size with
      | none => none
      | some r => some (r.1 % 2 ^ 64, { s with mem64Pref := some r.2 })
    | none => s.allocMemory64 size
  else s.allocMemory64 size

/-! ## Endpoint BAR reprogramming (`src/types/config/endpoint.rs`) -/

/-- The quiesce step of `realloc_bar` (lines 45-49): clear
`IO_ENABLE | MEMORY_ENABLE` (bits 0 and 1) of the command register via a
read-modify-write of the word at 0x04 (`update_command`, modelled from the
spec §4.4). -/
def quiesce (c : Cfg) (a : PciAddress) : Cfg :=
  writeCfg c a 0x04 (c a 0x04 / 4 * 4)

/-- The `new_vals` collect of the `Memory32` arm (lines 55-66): every
allocation is computed, threading the allocator, before any write-back;
`none` is the `.unwrap()` panic on a failed allocation. -/
def computeNew32 : List (Option Bar32) → SimpleBarAllocator →
    Option (List (Option Nat) × SimpleBarAllocator)
  | [], al => some ([], al)
  | none :: rest, al =>
    match computeNew32 rest al with
    | some r => some (none :: r.1, r.2)
    | none => none
  | some b :: rest, al =>
    match al.allocMemory32WithPref b.size b.prefetchable with
    | none => none
    | some (v, al') =>
      match computeNew32 rest al' with
      | some r => some (some v :: r.1, r.2)
      | none => none

/-- The `new_vals` collect of the `Memory64` arm (lines 74-91): a 64-bit
BAR whose pre-existing address lies strictly between 0 and `u32::MAX`
goes to the 32-bit allocator (`b.size as u32`), otherwise to the 64-bit
allocator; `none` is the `.unwrap()` panic. -/
def computeNew64 : List (Option Bar64) → SimpleBarAllocator →
    Option (List (Option Nat) × SimpleBarAllocator)
  | [], al => some ([], al)
  | none :: rest, al =>
    match computeNew64 rest al with
    | some r => some (none :: r.1, r.2)
    | none => none
  | some b :: rest, al =>
    let alloc :=
      if 0 < b.address ∧ b.address < 2 ^ 32 - 1 then
        al.allocMemory32WithPref (b.size % 2 ^ 32) b.prefetchable
      else
        al.allocMemory64WithPref b.size b.prefetchable
    match alloc with
    | none => none
    | some (v, al') =>
      match computeNew64 rest al' with
      | some r => some (some v :: r.1, r.2)
      | none => none

/-- `EndpointHeader::write_bar` for a 32-bit slot: BAR slot `i` is the
word at `0x10 + 4*i`.  Modelled from the spec (§4.4, §6). -/
def writeBar32 (c : Cfg) (a : PciAddress) (slot value : Nat) : Cfg :=
  writeCfg c a (0x10 + 4 * slot) (value % 2 ^ 32)

/-- `EndpointHeader::write_bar` for a 64-bit BAR at slot `i`: the value is
split across slots `i` and `i+1`.  Modelled from the spec (§4.4, §6). -/
def writeBar64 (c : Cfg) (a : PciAddress) (slot value : Nat) : Cfg :=
  writeCfg (writeCfg c a (0x10 + 4 * slot) (value % 2 ^ 32))
    a (0x10 + 4 * (slot + 1)) (value / 2 ^ 32 % 2 ^ 32)

/-- The write-back loop of the `Memory32` arm (lines 67-71):
`BarVecT::<Bar32>::set(i, v)` writes slot `i`. -/
def writeBack32 (a : PciAddress) : List (Option Nat) → Nat → Cfg → Cfg
  | [], _, c => c
  | none :: rest, i, c => writeBack32 a rest (i + 1) c
  | some v :: rest, i, c => writeBack32 a rest (i + 1) (writeBar32 c a i v)

/-- The write-back loop of the `Memory64` arm (lines 92-99):
`BarVecT::<Bar64>::set(i, v)` writes slot `i * 2` as a 64-bit BAR. -/
def writeBack64 (a : PciAddress) : List (Option Nat) → Nat → Cfg → Cfg
  | [], _, c => c
  | none :: rest, i, c => writeBack64 a rest (i + 1) c
  | some v :: rest, i, c => writeBack64 a rest (i + 1) (writeBar64 c a (i * 2) v)

/-- Outcome of `Endpoint::realloc_bar`: either success, or a Rust panic
(`.unwrap()` on a failed allocation, or `unimplemented!` for I/O BARs),
in both cases with the configuration space and allocator reached. -/
inductive ReallocResult where
  | ok (cfg : Cfg) (alloc : SimpleBarAllocator)
  | panicked (cfg : Cfg) (alloc : SimpleBarAllocator)

def ReallocResult.isPanic : ReallocResult → Bool
  | .ok _ _ => false
  | .panicked _ _ => true

def ReallocResult.cfg : ReallocResult → Cfg
  | .ok c _ => c
  | .panicked c _ => c

/-- `Endpoint::realloc_bar` (lines 40-107), over the already-parsed
`BarVec` of the endpoint at `a`: quiesce the command register, compute all
allocations, then write every allocated value back.  A failed allocation
panics via `.unwrap()` before any BAR write has happened. -/
def reallocBar (a : PciAddress) (bars : BarVecM) (al : SimpleBarAllocator)
    (c : Cfg) : ReallocResult :=
  let c1 := quiesce c a
  match bars with
  | .memory32 v =>
    match computeNew32 v al with
    | none => .panicked c1 al
    | some r => .ok (writeBack32 a r.1 0 c1) r.2
  | .memory64 v =>
    match computeNew64 v al with
    | none => .panicked c1 al
    | some r => .ok (writeBack64 a r.1 0 c1) r.2
  | .io _ => .panicked c1 al

/-! ## Concrete configuration spaces used by the claims -/

/-- Every read returns `0xFFFF_FFFF`: the empty bus. -/
def emptyCfg : Cfg := fun _ _ => 0xFFFFFFFF

/-- A present header word selector: vendor/device at 0, class 0, header
word at 0x0C; everything else 0. -/
def mkHeader (idWord hdrWord : Nat) : Nat → Nat := fun off =>
  if off = 0 then idWord else if off = 0x0C then hdrWord else 0

/-- Two-level bridge tree: bridge at (0,0,0), bridge at (1,0,0), endpoint
at (2,0,0); everything else absent. -/
def twoLevelCfg : Cfg := fun a off =>
  if a = ⟨0, 0, 0, 0⟩ then mkHeader 0x12341234 0x00010000 off
  else if a = ⟨0, 1, 0, 0⟩ then mkHeader 0x12341234 0x00010000 off
  else if a = ⟨0, 2, 0, 0⟩ then mkHeader 0x56785678 0 off
  else 0xFFFFFFFF

/-- Multi-function device at (0,0): function 0 is an endpoint with
`has_multiple_functions = true`, function 1 a present endpoint with the
bit clear, function 2 a present endpoint; everything else absent. -/
def latchCfg : Cfg := fun a off =>
  if a = ⟨0, 0, 0, 0⟩ then mkHeader 0x12341234 0x00800000 off
  else if a = ⟨0, 0, 0, 1⟩ then mkHeader 0x12341234 0 off
  else if a = ⟨0, 0, 0, 2⟩ then mkHeader 0x12341234 0 off
  else 0xFFFFFFFF

/-- A present function at (0,0,0) whose header-type byte reads 0x02
(CardBusBridge); everything else absent. -/
def cardbusCfg : Cfg := fun a off =>
  if a = ⟨0, 0, 0, 0⟩ then mkHeader 0x12341234 0x00020000 off
  else 0xFFFFFFFF

/-- An allocator holding only a prefetchable 32-bit window
`[0x8000_0000, 0x8001_0000)` (spec §8 scenario 6). -/
def only32PrefAlloc : SimpleBarAllocator :=
  { SimpleBarAllocator.empty with
    mem32Pref := some ⟨[(0x80000000, 0x80010000)]⟩ }


/-! ## Invariant and measure for termination of the enumeration walk -/

/-- Subordinate bus of a frame as the engine reads it. -/
def frameSub (c : Cfg) (f : Frame) : Nat := (f.bridge.busNumber c).subordinate

/-- Secondary bus of a frame as the engine reads it. -/
def frameSec (c : Cfg) (f : Frame) : Nat := (f.bridge.busNumber c).secondary

/-- The stack invariant (top frame first): every frame's device cursor is
in range and its subordinate equals the common value `S`; secondaries
strictly increase towards the top and stay at most `S`; every non-root
frame's own address has the bus of the frame below it (so the 0x18 cells
of distinct frames are distinct), and the bottom frame is the synthetic
root. -/
def StackChain (c : Cfg) (S : Nat) : List Frame → Prop
  | [] => True
  | f :: rest =>
    f.device ≤ 31 ∧
    frameSub c f = S ∧
    frameSec c f ≤ S ∧
    (match rest with
     | [] => f.bridge.address = none
     | g :: _ => (∃ fa, f.bridge.address = some fa ∧ fa.bus = frameSec c g) ∧
                 frameSec c g < frameSec c f) ∧
    StackChain c S rest

/-- Remaining device work on the stack. -/
def stackWeight : List Frame → Nat
  | [] => 0
  | f :: rest => (32 - f.device) + stackWeight rest

/-- Termination measure: buses still openable dominate, then remaining
devices, then remaining functions. -/
def engMeasure (st : EngineState) : Nat :=
  match st.stack with
  | [] => 0
  | f :: _ => (st.busMax + 1 - frameSub st.cfg f) * 300 +
      stackWeight st.stack * 9 + (8 - st.function)

/-- Configuration contents whose present functions all decode as
Endpoint or PciPciBridge (the two header kinds the engine implements;
CardBusBridge and Unknown hit `todo!()`). -/
def GoodCfg (c : Cfg) : Prop :=
  ∀ a, vendorId c a ≠ 0xFFFF →
    headerKindOf c a = .endpoint ∨ headerKindOf c a = .pciPciBridge

/-- The engine-state invariant. -/
structure EngineInv (st : EngineState) : Prop where
  func : st.function ≤ 7
  bm : st.busMax ≤ 255
  active : st.stack ≠ []
  chain : ∃ S, S ≤ st.busMax ∧ StackChain st.cfg S st.stack

/-! # Theorems -/

/-! ## Basic facts about configuration-space writes -/

theorem writeCfg_same (c : Cfg) (a : PciAddress) (off v : Nat) :
    writeCfg c a off v a off = v := by
  simp [writeCfg]

theorem writeCfg_other (c : Cfg) (a : PciAddress) (off v : Nat)
    (a2 : PciAddress) (o2 : Nat) (h : ¬(a2 = a ∧ o2 = off)) :
    writeCfg c a off v a2 o2 = c a2 o2 := by
  simp [writeCfg, h]

theorem popLoopFuel_cfg (fuel : Nat) (st : EngineState) :
    (popLoopFuel fuel st).cfg = st.cfg := by
  induction fuel generalizing st with
  | zero => rfl
  | succ n ih =>
    rw [popLoopFuel]
    split
    · rfl
    · split
      · exact ih _
      · rfl

theorem popLoop_cfg (st : EngineState) : (popLoop st).cfg = st.cfg :=
  popLoopFuel_cfg _ _

theorem popLoopFuel_multi (fuel : Nat) (st : EngineState) :
    (popLoopFuel fuel st).isMultipleFunction = st.isMultipleFunction := by
  induction fuel generalizing st with
  | zero => rfl
  | succ n ih =>
    rw [popLoopFuel]
    split
    · rfl
    · split
      · exact ih _
      · rfl

theorem popLoop_multi (st : EngineState) :
    (popLoop st).isMultipleFunction = st.isMultipleFunction :=
  popLoopFuel_multi _ _

theorem stepNext_none_cfg (st : EngineState) : (stepNext none st).cfg = st.cfg := by
  unfold stepNext isNextFunctionMax
  dsimp only
  split <;> split <;> simp [popLoop_cfg]

theorem stepNext_none_multi (st : EngineState) :
    (stepNext none st).isMultipleFunction = st.isMultipleFunction := by
  unfold stepNext isNextFunctionMax
  dsimp only
  split <;> split <;> simp [popLoop_multi]

/-! ## Claim C6 -/

/-- C6: when the first BAR slot decodes as a 64-bit memory BAR,
`parse_bar` produces a 64-bit `BarVec` of exactly 3 entries in which entry
`i` is read from slot `2*i` (slots 0, 2, 4 only); the high half at an odd
slot is never reported as an independent BAR. -/
theorem parse_bar_fuses_64bit (readBar : Nat → Option PBar) (a s : Nat)
    (p : Bool) (h : readBar 0 = some (.mem64 a s p)) :
    parseBar readBar 6 =
      .memory64 [some ⟨a, s, p⟩, toBar64 (readBar 2), toBar64 (readBar 4)] := by
  unfold parseBar
  rw [h]
  rfl

/-- A `read_bar` mock with a 64-bit BAR in slots 0-1 and another in
slots 2-3; slot 1 deliberately holds a decodable value that must not
surface. -/
def rb64Example : Nat → Option PBar := fun i =>
  if i = 0 then some (.mem64 0 0x1000 true)
  else if i = 1 then some (.mem32 0xdead 0x100 false)
  else if i = 2 then some (.mem64 0x100000 0x2000 false)
  else none

theorem parse_bar_fuses_64bit_witness :
    rb64Example 0 = some (.mem64 0 0x1000 true) ∧
    parseBar rb64Example 6 =
      .memory64 [some ⟨0, 0x1000, true⟩, toBar64 (rb64Example 2),
        toBar64 (rb64Example 4)] :=
  ⟨rfl, parse_bar_fuses_64bit rb64Example 0 0x1000 true rfl⟩

/-! ## Claim C10 -/

/-- C10: `parse_bar` determines the shape of the whole `BarVec` from
slot 0 alone: an unimplemented slot 0 yields the empty 32-bit vector
(slots 1-5 never reported); otherwise only BARs whose kind matches
slot 0's kind appear, and mismatching kinds at later slots are silently
omitted (`toBar32`/`toIoBar` produce `some` only for their own kind). -/
theorem parse_bar_slot0_determines_shape (readBar : Nat → Option PBar) :
    (readBar 0 = none → parseBar readBar 6 = .memory32 []) ∧
    (∀ a s p, readBar 0 = some (.mem32 a s p) →
      parseBar readBar 6 = .memory32 [some ⟨a, s, p⟩, toBar32 (readBar 1),
        toBar32 (readBar 2), toBar32 (readBar 3), toBar32 (readBar 4),
        toBar32 (readBar 5)]) ∧
    (∀ port, readBar 0 = some (.io port) →
      parseBar readBar 6 = .io [some ⟨port⟩, toIoBar (readBar 1),
        toIoBar (readBar 2), toIoBar (readBar 3), toIoBar (readBar 4),
        toIoBar (readBar 5)]) ∧
    (∀ o : Option PBar, (toBar32 o).isSome = true →
      ∃ a s p, o = some (.mem32 a s p)) ∧
    (∀ o : Option PBar, (toIoBar o).isSome = true →
      ∃ port, o = some (.io port)) := by
  refine ⟨fun h => ?_, fun a s p h => ?_, fun port h => ?_, fun o ho => ?_,
    fun o ho => ?_⟩
  · unfold parseBar; rw [h]
  · unfold parseBar; rw [h]; rfl
  · unfold parseBar; rw [h]; rfl
  · match o with
    | some (.mem32 a s p) => exact ⟨a, s, p, rfl⟩
    | some (.mem64 _ _ _) => simp [toBar32] at ho
    | some (.io _) => simp [toBar32] at ho
    | none => simp [toBar32] at ho
  · match o with
    | some (.io port) => exact ⟨port, rfl⟩
    | some (.mem64 _ _ _) => simp [toIoBar] at ho
    | some (.mem32 _ _ _) => simp [toIoBar] at ho
    | none => simp [toIoBar] at ho

/-- A `read_bar` mock with no BAR at slot 0, and one with a 32-bit slot 0
followed by an I/O BAR that must be omitted. -/
def rbNone0 : Nat → Option PBar := fun i =>
  if i = 0 then none else some (.mem32 1 2 false)

def rbMixed : Nat → Option PBar := fun i =>
  if i = 0 then some (.mem32 0x1000 0x100 false)
  else if i = 1 then some (.io 0x3f8)
  else none

theorem parse_bar_slot0_determines_shape_witness :
    (rbNone0 0 = none ∧ parseBar rbNone0 6 = .memory32 []) ∧
    (rbMixed 0 = some (.mem32 0x1000 0x100 false) ∧
      parseBar rbMixed 6 = .memory32 [some ⟨0x1000, 0x100, false⟩,
        toBar32 (rbMixed 1), toBar32 (rbMixed 2), toBar32 (rbMixed 3),
        toBar32 (rbMixed 4), toBar32 (rbMixed 5)] ∧
      toBar32 (rbMixed 1) = none) :=
  ⟨⟨rfl, (parse_bar_slot0_determines_shape rbNone0).1 rfl⟩,
   ⟨rfl, (parse_bar_slot0_determines_shape rbMixed).2.1 0x1000 0x100 false rfl,
    rfl⟩⟩

/-! ## Claim C4 -/

/-- C4 counterexample: with only a prefetchable 32-bit window
`[0x8000_0000, 0x8001_0000)` installed, the claim expects
`alloc_memory64_with_pref(0x10000, true)` to fall back to the 32-bit
allocator and return `0x8000_0000` zero-extended; the code returns `None`
even though the 32-bit allocator would have served the request. -/
theorem alloc_memory64_no_32bit_fallback :
    only32PrefAlloc.allocMemory64WithPref 0x10000 true = none ∧
    (only32PrefAlloc.allocMemory32WithPref 0x10000 true).isSome = true := by
  decide

/-- C4 (amended): `alloc_memory64_with_pref(size, prefetchable)` allocates
from the prefetchable 64-bit window when `prefetchable` holds and that
window is installed (its failure is returned without further fallback);
otherwise it falls back to `alloc_memory64` (the non-prefetchable 64-bit
window); when no 64-bit window can serve the request the result is `None`
— there is no fallback to the 32-bit allocator. -/
theorem alloc_memory64_with_pref_policy (s : SimpleBarAllocator)
    (al : AddressAllocator) (size : Nat) :
    (s.mem64Pref = some al →
      s.allocMemory64WithPref size true =
        match al.allocate size size with
        | none => none
        | some r => some (r.1 % 2 ^ 64, { s with mem64Pref := some r.2 })) ∧
    (s.mem64Pref = none →
      s.allocMemory64WithPref size true = s.allocMemory64 size) ∧
    (s.allocMemory64WithPref size false = s.allocMemory64 size) ∧
    (SimpleBarAllocator.empty.setMem32 0x80000000 0x10000 true =
      some only32PrefAlloc ∧
     only32PrefAlloc.allocMemory64WithPref 0x10000 true = none ∧
     only32PrefAlloc.allocMemory32WithPref 0x10000 true =
       some (0x80000000, ⟨none, none, some ⟨[]⟩, none⟩)) := by
  refine ⟨fun h => ?_, fun h => ?_, ?_, by decide⟩
  · unfold SimpleBarAllocator.allocMemory64WithPref
    rw [if_pos rfl, h]
  · unfold SimpleBarAllocator.allocMemory64WithPref
    rw [if_pos rfl, h]
  · unfold SimpleBarAllocator.allocMemory64WithPref
    rw [if_neg (by simp)]

theorem alloc_memory64_with_pref_policy_witness :
    only32PrefAlloc.mem64Pref = none ∧
    only32PrefAlloc.allocMemory64WithPref 0x10000 true =
      only32PrefAlloc.allocMemory64 0x10000 :=
  ⟨rfl, (alloc_memory64_with_pref_policy only32PrefAlloc ⟨[]⟩ 0x10000).2.1 rfl⟩

/-! ## Claim C5 -/

/-- C5 counterexample: an endpoint with a single 32-bit BAR of size
0x1000 and an allocator with no windows.  The allocation returns `None`
and `realloc_bar` panics through `.unwrap()` — the failure is not
surfaced as a per-endpoint descriptor state and enumeration does not
continue past it. -/
theorem realloc_bar_failure_panics_counterexample :
    (reallocBar ⟨0, 0, 0, 0⟩ (.memory32 [some ⟨0, 0x1000, false⟩])
        SimpleBarAllocator.empty emptyCfg).isPanic = true ∧
    SimpleBarAllocator.empty.allocMemory32WithPref 0x1000 false = none := by
  constructor
  · rfl
  · rfl

/-- C5 (amended): when any BAR allocation returns `None` during
`realloc_bar` the code panics via `.unwrap()` (the failure is fatal, not a
per-endpoint descriptor state), but the endpoint's BARs are never
partially reprogrammed: all allocations are computed before any write-back
(the configuration space at the panic differs from the original only at
the quiesced command word 0x04), and on success every allocated value is
written back. -/
theorem realloc_bar_failure_atomic (a : PciAddress)
    (v32 : List (Option Bar32)) (v64 : List (Option Bar64))
    (al : SimpleBarAllocator) (c : Cfg) :
    (computeNew32 v32 al = none →
      reallocBar a (.memory32 v32) al c = .panicked (quiesce c a) al) ∧
    (computeNew64 v64 al = none →
      reallocBar a (.memory64 v64) al c = .panicked (quiesce c a) al) ∧
    (∀ a2 off, ¬(a2 = a ∧ off = 0x04) → quiesce c a a2 off = c a2 off) ∧
    (∀ r, computeNew32 v32 al = some r →
      reallocBar a (.memory32 v32) al c =
        .ok (writeBack32 a r.1 0 (quiesce c a)) r.2) ∧
    (∀ r, computeNew64 v64 al = some r →
      reallocBar a (.memory64 v64) al c =
        .ok (writeBack64 a r.1 0 (quiesce c a)) r.2) := by
  refine ⟨fun h => ?_, fun h => ?_, fun a2 off h => ?_, fun r h => ?_,
    fun r h => ?_⟩
  · unfold reallocBar; dsimp only; rw [h]
  · unfold reallocBar; dsimp only; rw [h]
  · unfold quiesce; exact writeCfg_other _ _ _ _ _ _ h
  · unfold reallocBar; dsimp only; rw [h]
  · unfold reallocBar; dsimp only; rw [h]

theorem realloc_bar_failure_atomic_witness :
    computeNew32 [some ⟨0, 0x1000, false⟩] SimpleBarAllocator.empty = none ∧
    reallocBar ⟨0, 0, 0, 0⟩ (.memory32 [some ⟨0, 0x1000, false⟩])
        SimpleBarAllocator.empty emptyCfg =
      .panicked (quiesce emptyCfg ⟨0, 0, 0, 0⟩) SimpleBarAllocator.empty :=
  ⟨rfl,
   (realloc_bar_failure_atomic ⟨0, 0, 0, 0⟩ [some ⟨0, 0x1000, false⟩] []
     SimpleBarAllocator.empty emptyCfg).1 rfl⟩

/-! ## Claim C7 -/

/-- C7: a probe whose `vendor_id` reads `0xFFFF` yields no descriptor and
is no error: the step is a skip (never a yield, never a panic), the cursor
advances by the absent-function rule (`next(None)`), configuration space
is not written, and even the multi-function latch is left untouched. -/
theorem absent_function_skipped (st : EngineState)
    (h : vendorId st.cfg st.address = 0xFFFF) :
    engineStep st = (.skipped, stepNext none st) ∧
    (engineStep st).2.cfg = st.cfg ∧
    (engineStep st).2.isMultipleFunction = st.isMultipleFunction := by
  have hg : getCurrentValid st = (none, st) := by
    unfold getCurrentValid
    rw [if_pos h]
  have he : engineStep st = (.skipped, stepNext none st) := by
    unfold engineStep
    rw [hg]
  refine ⟨he, ?_, ?_⟩
  · rw [he]; exact stepNext_none_cfg st
  · rw [he]; exact stepNext_none_multi st

theorem absent_function_skipped_witness :
    vendorId emptyCfg (initState emptyCfg 0 255).address = 0xFFFF ∧
    engineStep (initState emptyCfg 0 255) =
      (.skipped, stepNext none (initState emptyCfg 0 255)) :=
  ⟨rfl, (absent_function_skipped (initState emptyCfg 0 255) rfl).1⟩

/-! ## Claim C8 -/

/-- C8: a probed function whose header type decodes as CardBusBridge does
not yield a descriptor and does not let enumeration continue: the engine
hits the `todo!()` at `src/root.rs` lines 174-175 — modelled as the
`panicked` outcome — contradicting the claim that such headers are
ordinary data. -/
theorem cardbus_header_panics :
    vendorId cardbusCfg ⟨0, 0, 0, 0⟩ = 0x1234 ∧
    headerKindOf cardbusCfg ⟨0, 0, 0, 0⟩ = .cardBusBridge ∧
    (run 10 (initState cardbusCfg 0 255)).1 = [] ∧
    (run 10 (initState cardbusCfg 0 255)).2.2 = true := by
  refine ⟨by decide, by decide, by decide, by decide⟩

/-! ## Claim C9 -/

/-- C9: the enumeration's synthetic root frame receives `bus_start` in
its **device cursor** (`Bridge::root` in `src/root.rs`), not in its
secondary/subordinate bus numbers (the parameterless
`config::PciPciBridge::root()` cannot carry it), so for `bus_start = 1`
the first probed address is `(segment 0, bus 0, device 1, function 0)` —
not `(0, 1, 0, 0)` as the claim states.  The two coincide only at
`bus_start = 0`. -/
theorem root_frame_cursor_is_bus_start :
    (initState emptyCfg 1 255).stack = [⟨CfgBridge.rootBridge, 1⟩] ∧
    (initState emptyCfg 1 255).address = ⟨0, 0, 1, 0⟩ ∧
    (initState emptyCfg 0 255).address = ⟨0, 0, 0, 0⟩ := by
  refine ⟨rfl, rfl, rfl⟩

/-! ## Claim C2 -/

/-- C2: the multi-function flag is latched on **every** successful probe
(`src/root.rs` line 138), not only at function 0.  With function 0
multi-function, function 1 present but reporting
`has_multiple_functions = false`, and function 2 present, the run yields
only functions 0 and 1 and finishes: the present function 2 is never
probed, contradicting the claim. -/
theorem multi_function_latch_every_probe :
    hasMultipleFunctions latchCfg ⟨0, 0, 0, 0⟩ = true ∧
    hasMultipleFunctions latchCfg ⟨0, 0, 0, 1⟩ = false ∧
    vendorId latchCfg ⟨0, 0, 0, 2⟩ = 0x1234 ∧
    headerKindOf latchCfg ⟨0, 0, 0, 2⟩ = .endpoint ∧
    (run 200 (initState latchCfg 0 255)).1 = [⟨0, 0, 0, 0⟩, ⟨0, 0, 0, 1⟩] ∧
    (run 200 (initState latchCfg 0 255)).2.1.isFinish = true ∧
    (run 200 (initState latchCfg 0 255)).2.2 = false := by
  refine ⟨rfl, rfl, by decide, by decide, by decide, by decide, by decide⟩

/-! ## Bus-number encoding and the ancestor-window loop -/

theorem forall₂_mem_right {α β : Type} {R : α → β → Prop} {l : List α}
    {l' : List β} (h : List.Forall₂ R l l') (b : β) (hb : b ∈ l') :
    ∃ a ∈ l, R a b := by
  induction h with
  | nil => cases hb
  | cons hR hrest ih =>
    rcases List.mem_cons.mp hb with hb | hb
    · subst hb; exact ⟨_, List.mem_cons_self _ _, hR⟩
    · obtain ⟨a, ha, hr⟩ := ih hb
      exact ⟨a, List.mem_cons_of_mem _ ha, hr⟩

theorem decodeBus_bounds (w : Nat) :
    (decodeBus w).primary < 256 ∧ (decodeBus w).secondary < 256 ∧
      (decodeBus w).subordinate < 256 := by
  unfold decodeBus
  refine ⟨?_, ?_, ?_⟩ <;> simp [Nat.mod_lt]

theorem decodeBus_encodeBus (w : Nat) (b : BusNumber) :
    decodeBus (encodeBus w b) =
      ⟨b.primary % 256, b.secondary % 256, b.subordinate % 256⟩ := by
  unfold decodeBus encodeBus
  have hp : b.primary % 256 < 256 := Nat.mod_lt _ (by norm_num)
  have hs : b.secondary % 256 < 256 := Nat.mod_lt _ (by norm_num)
  have hb : b.subordinate % 256 < 256 := Nat.mod_lt _ (by norm_num)
  simp only [BusNumber.mk.injEq]
  refine ⟨?_, ?_, ?_⟩ <;> omega

theorem busNumber_writeCfg (b : CfgBridge) (c : Cfg) (a : PciAddress)
    (off v : Nat) (h : ∀ ba, b.address = some ba → ¬(ba = a ∧ 0x18 = off)) :
    b.busNumber (writeCfg c a off v) = b.busNumber c := by
  unfold CfgBridge.busNumber
  cases hb : b.address with
  | none => rfl
  | some ba =>
    dsimp only
    rw [writeCfg_other _ _ _ _ _ _ (h ba hb)]

theorem forall₂_imp_mem {α β : Type} {R S : α → β → Prop} {l : List α}
    {l' : List β} (h : List.Forall₂ R l l')
    (himp : ∀ a ∈ l, ∀ b, R a b → S a b) : List.Forall₂ S l l' := by
  induction h with
  | nil => exact .nil
  | cons hR hrest ih =>
    exact .cons (himp _ (List.mem_cons_self _ _) _ hR)
      (ih fun a ha b hr => himp a (List.mem_cons_of_mem _ ha) b hr)

/-- Pairwise distinctness of the real bridge addresses on the stack. -/
def FramesDistinct (fr : List Frame) : Prop :=
  fr.Pairwise (fun f g => ∀ fa ga, f.bridge.address = some fa →
    g.bridge.address = some ga → fa ≠ ga)

/-- The increment function applied by the ancestor loop. -/
def subSucc : BusNumber → BusNumber :=
  fun bus => { bus with subordinate := bus.subordinate + 1 }

theorem bumpFrames_cons (f : Frame) (rest : List Frame) (c : Cfg) :
    bumpFrames (f :: rest) c =
      (({ f with bridge := (f.bridge.updateBusNumber subSucc c).1 } ::
        (bumpFrames rest (f.bridge.updateBusNumber subSucc c).2).1),
       (bumpFrames rest (f.bridge.updateBusNumber subSucc c).2).2) := rfl

theorem updateBusNumber_none (b : CfgBridge) (f : BusNumber → BusNumber)
    (c : Cfg) (hb : b.address = none) :
    b.updateBusNumber f c = ({ b with rootBus := f b.rootBus }, c) := by
  unfold CfgBridge.updateBusNumber
  rw [hb]

theorem updateBusNumber_some (b : CfgBridge) (f : BusNumber → BusNumber)
    (c : Cfg) (ba : PciAddress) (hb : b.address = some ba) :
    b.updateBusNumber f c =
      (b, writeCfg c ba 0x18 (encodeBus (c ba 0x18) (f (decodeBus (c ba 0x18))))) := by
  unfold CfgBridge.updateBusNumber
  rw [hb]

theorem busNumber_of_none (b : CfgBridge) (c : Cfg) (hb : b.address = none) :
    b.busNumber c = b.rootBus := by
  unfold CfgBridge.busNumber
  rw [hb]

theorem busNumber_of_some (b : CfgBridge) (c : Cfg) (ba : PciAddress)
    (hb : b.address = some ba) : b.busNumber c = decodeBus (c ba 0x18) := by
  unfold CfgBridge.busNumber
  rw [hb]

theorem bumpFrames_cfg_other (fr : List Frame) (c : Cfg) (a2 : PciAddress)
    (off : Nat)
    (h : ∀ f ∈ fr, ∀ fa, f.bridge.address = some fa → ¬(a2 = fa ∧ off = 0x18)) :
    (bumpFrames fr c).2 a2 off = c a2 off := by
  induction fr generalizing c with
  | nil => rfl
  | cons f rest ih =>
    rw [bumpFrames_cons]
    cases hb : f.bridge.address with
    | none =>
      rw [updateBusNumber_none _ _ _ hb]
      exact ih _ fun g hg => h g (List.mem_cons_of_mem _ hg)
    | some fa =>
      rw [updateBusNumber_some _ _ _ _ hb]
      dsimp only
      rw [ih _ fun g hg => h g (List.mem_cons_of_mem _ hg)]
      exact writeCfg_other _ _ _ _ _ _ (h f (List.mem_cons_self _ _) fa hb)

theorem bumpFrames_length (fr : List Frame) (c : Cfg) :
    (bumpFrames fr c).1.length = fr.length := by
  induction fr generalizing c with
  | nil => rfl
  | cons f rest ih =>
    rw [bumpFrames_cons]
    simp [ih]

theorem bumpFrames_frames (fr : List Frame) (c : Cfg)
    (hd : FramesDistinct fr)
    (hbound : ∀ f ∈ fr, (f.bridge.busNumber c).subordinate + 1 < 256) :
    List.Forall₂ (fun f f' =>
      f'.device = f.device ∧ f'.bridge.address = f.bridge.address ∧
      f'.bridge.busNumber (bumpFrames fr c).2 =
        { f.bridge.busNumber c with
          subordinate := (f.bridge.busNumber c).subordinate + 1 })
      fr (bumpFrames fr c).1 := by
  induction fr generalizing c with
  | nil => exact List.Forall₂.nil
  | cons f rest ih =>
    have hdRest : FramesDistinct rest := (List.pairwise_cons.mp hd).2
    have hdHead := (List.pairwise_cons.mp hd).1
    rw [bumpFrames_cons]
    cases hb : f.bridge.address with
    | none =>
      rw [updateBusNumber_none _ _ _ hb]
      dsimp only
      refine List.Forall₂.cons ⟨rfl, by simp [hb], ?_⟩ ?_
      · rw [busNumber_of_none _ _ (by simp [hb]), busNumber_of_none _ _ hb]
        rfl
      · exact ih c hdRest fun g hg => hbound g (List.mem_cons_of_mem _ hg)
    | some fa =>
      rw [updateBusNumber_some _ _ _ _ hb]
      dsimp only
      have hcongr : ∀ g ∈ rest,
          g.bridge.busNumber (writeCfg c fa 0x18
            (encodeBus (c fa 0x18) (subSucc (decodeBus (c fa 0x18))))) =
            g.bridge.busNumber c := by
        intro g hg
        refine busNumber_writeCfg _ _ _ _ _ ?_
        intro ga hga hcontra
        exact hdHead g hg fa ga hb hga hcontra.1.symm
      have hbR : ∀ g ∈ rest,
          (g.bridge.busNumber (writeCfg c fa 0x18
            (encodeBus (c fa 0x18) (subSucc (decodeBus (c fa 0x18)))))).subordinate
              + 1 < 256 := by
        intro g hg
        rw [hcongr g hg]
        exact hbound g (List.mem_cons_of_mem _ hg)
      refine List.Forall₂.cons ⟨rfl, rfl, ?_⟩ ?_
      · have hcell : (bumpFrames rest (writeCfg c fa 0x18
            (encodeBus (c fa 0x18) (subSucc (decodeBus (c fa 0x18)))))).2 fa 0x18 =
            writeCfg c fa 0x18
              (encodeBus (c fa 0x18) (subSucc (decodeBus (c fa 0x18)))) fa 0x18 := by
          refine bumpFrames_cfg_other _ _ _ _ ?_
          intro g hg ga hga hcontra
          exact hdHead g hg fa ga hb hga hcontra.1
        rw [busNumber_of_some _ _ _ hb, busNumber_of_some _ _ _ hb, hcell,
          writeCfg_same, decodeBus_encodeBus]
        have hbnds := decodeBus_bounds (c fa 0x18)
        have hsub := hbound f (List.mem_cons_self _ _)
        rw [busNumber_of_some _ _ _ hb] at hsub
        simp only [subSucc, BusNumber.mk.injEq]
        exact ⟨Nat.mod_eq_of_lt hbnds.1, Nat.mod_eq_of_lt hbnds.2.1,
          Nat.mod_eq_of_lt hsub⟩
      · refine forall₂_imp_mem (ih _ hdRest hbR) ?_
        intro g hg g' hr
        exact ⟨hr.1, hr.2.1, by rw [hr.2.2, hcongr g hg]⟩

theorem stepNext_some_def (b : CfgBridge) (st : EngineState) :
    stepNext (some b) st =
      { st with cfg := (bumpFrames st.stack st.cfg).2,
                stack := ⟨b, 0⟩ :: (bumpFrames st.stack st.cfg).1,
                function := 0 } := rfl

/-! ## Claim C1 -/

/-- C1: a probe that finds a PCI-PCI bridge while the parent frame's
subordinate `S` is strictly below `bus_max` programs the bridge's triple
to `(primary = its own bus, secondary = subordinate = S + 1)`, increments
the subordinate of every frame already on the stack by 1, pushes a new
frame with device cursor 0 and resets the function to 0, and yields no
descriptor; when `S = bus_max` the bridge is treated as absent (nothing
programmed, nothing pushed).  In the two-level tree (bridges at (0,0,0)
and (1,0,0), endpoint at (2,0,0)) the run leaves the outer bridge with
triple `(0,1,2)` and the inner with `(1,2,2)`, yielding only the
endpoint. -/
theorem bridge_probe_programs_and_pushes (st : EngineState) (parent : Frame)
    (rest : List Frame) (S : Nat)
    (hstack : st.stack = parent :: rest)
    (hv : vendorId st.cfg st.address ≠ 0xFFFF)
    (hk : headerKindOf st.cfg st.address = .pciPciBridge)
    (hS : (parent.bridge.busNumber st.cfg).subordinate = S)
    (hbm : st.busMax ≤ 255)
    (hbus : st.address.bus < 256)
    (hcommon : ∀ f ∈ st.stack, (f.bridge.busNumber st.cfg).subordinate = S)
    (hdist : ∀ f ∈ st.stack, ∀ fa, f.bridge.address = some fa → fa ≠ st.address)
    (hpair : FramesDistinct st.stack) :
    (S = st.busMax →
      engineStep st = (.skipped, stepNext none
        { st with isMultipleFunction := hasMultipleFunctions st.cfg st.address }) ∧
      (engineStep st).2.cfg = st.cfg) ∧
    (S < st.busMax →
      (engineStep st).1 = .skipped ∧
      (engineStep st).2.function = 0 ∧
      (engineStep st).2.stack.head? =
        some ⟨⟨some st.address, ⟨0, 0, 0⟩⟩, 0⟩ ∧
      (engineStep st).2.stack.length = st.stack.length + 1 ∧
      decodeBus ((engineStep st).2.cfg st.address 0x18) =
        ⟨st.address.bus, S + 1, S + 1⟩ ∧
      (∀ f' ∈ (engineStep st).2.stack.tail,
        (f'.bridge.busNumber (engineStep st).2.cfg).subordinate = S + 1)) ∧
    ((run 200 (initState twoLevelCfg 0 255)).1 = [⟨0, 2, 0, 0⟩] ∧
     (run 200 (initState twoLevelCfg 0 255)).2.2 = false ∧
     (run 200 (initState twoLevelCfg 0 255)).2.1.isFinish = true ∧
     decodeBus ((run 200 (initState twoLevelCfg 0 255)).2.1.cfg
       ⟨0, 0, 0, 0⟩ 0x18) = ⟨0, 1, 2⟩ ∧
     decodeBus ((run 200 (initState twoLevelCfg 0 255)).2.1.cfg
       ⟨0, 1, 0, 0⟩ 0x18) = ⟨1, 2, 2⟩) := by
  refine ⟨fun hSb => ?_, fun hSlt => ?_,
    by decide, by decide, by decide, by decide, by decide⟩
  · -- the parent's window is exhausted: the bridge is treated as absent
    have hsubeq : (parent.bridge.busNumber st.cfg).subordinate = st.busMax := by
      rw [hS]; exact hSb
    have hgcv : getCurrentValid st = (none,
        { st with isMultipleFunction := hasMultipleFunctions st.cfg st.address }) := by
      unfold getCurrentValid
      rw [if_neg hv]
      dsimp only
      rw [hk, hstack]
      dsimp only
      rw [if_pos hsubeq]
    have he : engineStep st = (.skipped, stepNext none
        { st with isMultipleFunction := hasMultipleFunctions st.cfg st.address }) := by
      unfold engineStep
      rw [hgcv]
    exact ⟨he, by rw [he]; exact stepNext_none_cfg _⟩
  · -- the bridge is programmed and pushed
    have hne : ¬((parent.bridge.busNumber st.cfg).subordinate = st.busMax) := by
      rw [hS]; exact Nat.ne_of_lt hSlt
    have hgcv : getCurrentValid st =
        (some (.bridge ⟨some st.address, ⟨0, 0, 0⟩⟩),
         { st with isMultipleFunction := hasMultipleFunctions st.cfg st.address,
                   cfg := writeCfg st.cfg st.address 0x18
                     (encodeBus (st.cfg st.address 0x18)
                       ⟨st.address.bus, S + 1, S + 1⟩) }) := by
      unfold getCurrentValid
      rw [if_neg hv]
      dsimp only
      rw [hk, hstack]
      dsimp only
      rw [if_neg hne]
      rw [updateBusNumber_some _ _ _ st.address rfl]
      dsimp only
      rw [hS]
    have hstep : engineStep st = (.skipped,
        stepNext (some ⟨some st.address, ⟨0, 0, 0⟩⟩)
          { st with isMultipleFunction := hasMultipleFunctions st.cfg st.address,
                    cfg := writeCfg st.cfg st.address 0x18
                      (encodeBus (st.cfg st.address 0x18)
                        ⟨st.address.bus, S + 1, S + 1⟩) }) := by
      unfold engineStep
      rw [hgcv]
    set c2 : Cfg := writeCfg st.cfg st.address 0x18
      (encodeBus (st.cfg st.address 0x18) ⟨st.address.bus, S + 1, S + 1⟩)
      with hc2
    have hbn2 : ∀ f ∈ st.stack, f.bridge.busNumber c2 = f.bridge.busNumber st.cfg := by
      intro f hf
      refine busNumber_writeCfg _ _ _ _ _ ?_
      intro ba hba hcontra
      exact hdist f hf ba hba hcontra.1
    have hbound2 : ∀ f ∈ st.stack, (f.bridge.busNumber c2).subordinate + 1 < 256 := by
      intro f hf
      rw [hbn2 f hf, hcommon f hf]
      omega
    have hff := bumpFrames_frames st.stack c2 hpair hbound2
    rw [hstep, stepNext_some_def]
    refine ⟨rfl, rfl, ?_, ?_, ?_, ?_⟩
    · simp
    · simp [bumpFrames_length]
    · have hcell : (bumpFrames st.stack c2).2 st.address 0x18 = c2 st.address 0x18 := by
        refine bumpFrames_cfg_other _ _ _ _ ?_
        intro f hf fa hfa hcontra
        exact hdist f hf fa hfa (hcontra.1.symm)
      dsimp only
      rw [hcell, hc2, writeCfg_same, decodeBus_encodeBus]
      simp only [BusNumber.mk.injEq]
      refine ⟨Nat.mod_eq_of_lt hbus, Nat.mod_eq_of_lt (by omega),
        Nat.mod_eq_of_lt (by omega)⟩
    · intro f' hf'
      dsimp only at hf' ⊢
      obtain ⟨f, hf, hrel⟩ := forall₂_mem_right hff f' (by simpa using hf')
      rw [hrel.2.2, hbn2 f hf, hcommon f hf]

theorem bridge_probe_programs_and_pushes_witness :
    (0 : Nat) < 255 ∧
    (engineStep (initState twoLevelCfg 0 255)).1 = .skipped ∧
    (engineStep (initState twoLevelCfg 0 255)).2.function = 0 ∧
    (engineStep (initState twoLevelCfg 0 255)).2.stack.head? =
      some ⟨⟨some ⟨0, 0, 0, 0⟩, ⟨0, 0, 0⟩⟩, 0⟩ := by
  have h := bridge_probe_programs_and_pushes (initState twoLevelCfg 0 255)
    (Frame.root 0) [] 0 rfl (by decide) (by decide) rfl (by decide) (by decide)
    (by decide)
    (by intro f hf fa hfa
        have hs : (initState twoLevelCfg 0 255).stack = [Frame.root 0] := rfl
        rw [hs, List.mem_singleton] at hf
        subst hf
        simp [Frame.root, CfgBridge.rootBridge] at hfa)
    (by have hs : (initState twoLevelCfg 0 255).stack = [Frame.root 0] := rfl
        rw [FramesDistinct, hs]
        simp)
  have h2 := h.2.1 (by decide)
  exact ⟨by decide, h2.1, h2.2.1, h2.2.2.1⟩

/-! ## Termination of the enumeration walk -/

theorem stackChain_congr (c c' : Cfg) (S : Nat) (fr : List Frame)
    (hch : StackChain c S fr)
    (hbn : ∀ f ∈ fr, f.bridge.busNumber c' = f.bridge.busNumber c) :
    StackChain c' S fr := by
  induction fr with
  | nil => trivial
  | cons f rest ih =>
    obtain ⟨hdev, hsub, hsec, hlink, hrest⟩ := hch
    have hf := hbn f (List.mem_cons_self _ _)
    refine ⟨hdev, ?_, ?_, ?_, ih hrest fun g hg => hbn g (List.mem_cons_of_mem _ hg)⟩
    · rw [frameSub, hf]; exact hsub
    · rw [frameSec, hf]; exact hsec
    · cases rest with
      | nil => exact hlink
      | cons g r =>
        obtain ⟨⟨fa, hfa, hbus⟩, hlt⟩ := hlink
        have hg := hbn g (List.mem_cons_of_mem _ (List.mem_cons_self _ _))
        refine ⟨⟨fa, hfa, ?_⟩, ?_⟩
        · rw [frameSec, hg]; exact hbus
        · rw [frameSec, hg, frameSec, hf]; exact hlt

theorem stackChain_of_forall₂ (c c' : Cfg) (S : Nat) (fr fr' : List Frame)
    (hch : StackChain c S fr)
    (hrel : List.Forall₂ (fun f f' =>
      f'.device = f.device ∧ f'.bridge.address = f.bridge.address ∧
      f'.bridge.busNumber c' =
        { f.bridge.busNumber c with
          subordinate := (f.bridge.busNumber c).subordinate + 1 }) fr fr') :
    StackChain c' (S + 1) fr' := by
  induction hrel with
  | nil => trivial
  | cons hR hrest ih =>
    rename_i f f' rest rest'
    obtain ⟨hdev, hsub, hsec, hlink, hchrest⟩ := hch
    refine ⟨?_, ?_, ?_, ?_, ih hchrest⟩
    · rw [hR.1]; exact hdev
    · rw [frameSub, hR.2.2]
      show (f.bridge.busNumber c).subordinate + 1 = S + 1
      rw [← frameSub, hsub]
    · rw [frameSec, hR.2.2]
      show (f.bridge.busNumber c).secondary ≤ S + 1
      exact le_trans hsec (Nat.le_succ S)
    · cases hrest with
      | nil => rw [hR.2.1]; exact hlink
      | cons hR2 hrest2 =>
        rename_i g g' r r'
        obtain ⟨⟨fa, hfa, hbus⟩, hlt⟩ := hlink
        refine ⟨⟨fa, by rw [hR.2.1]; exact hfa, ?_⟩, ?_⟩
        · rw [frameSec, hR2.2.2]
          show fa.bus = (g.bridge.busNumber c).secondary
          rw [← frameSec]; exact hbus
        · rw [frameSec, hR2.2.2, frameSec, hR.2.2]
          show (g.bridge.busNumber c).secondary < (f.bridge.busNumber c).secondary
          rw [← frameSec, ← frameSec]; exact hlt

theorem stackChain_bus_bound (c : Cfg) (S : Nat) :
    ∀ (f : Frame) (rest : List Frame), StackChain c S (f :: rest) →
    ∀ g ∈ f :: rest, ∀ ga, g.bridge.address = some ga → ga.bus < frameSec c f := by
  intro f rest
  induction rest generalizing f with
  | nil =>
    intro hch g hg ga hga
    obtain ⟨_, _, _, hroot, _⟩ := hch
    rw [List.mem_singleton] at hg
    subst hg
    rw [hroot] at hga
    cases hga
  | cons g0 r ih =>
    intro hch g hg ga hga
    obtain ⟨_, _, _, ⟨⟨fa, hfa, hbus⟩, hlt⟩, hrest⟩ := hch
    rcases List.mem_cons.mp hg with hg | hg
    · subst hg
      rw [hfa] at hga
      cases hga
      rw [hbus]
      exact hlt
    · exact lt_trans (ih g0 hrest g hg ga hga) hlt

theorem stackChain_distinct (c : Cfg) (S : Nat) (fr : List Frame)
    (hch : StackChain c S fr) : FramesDistinct fr := by
  induction fr with
  | nil => exact List.Pairwise.nil
  | cons f rest ih =>
    obtain ⟨_, _, _, hlink, hrest⟩ := hch
    refine List.Pairwise.cons ?_ (ih hrest)
    intro g hg fa ga hfa hga
    cases rest with
    | nil => cases hg
    | cons g0 r =>
      obtain ⟨⟨fa0, hfa0, hbus0⟩, _⟩ := hlink
      rw [hfa0] at hfa
      cases hfa
      have hlt2 := stackChain_bus_bound c S g0 r hrest g hg ga hga
      intro hcontra
      rw [← hcontra, hbus0] at hlt2
      exact lt_irrefl _ hlt2

theorem popLoopFuel_progress (fuel : Nat) :
    ∀ (st : EngineState) (S : Nat), st.stack.length < fuel →
    st.function = 0 → StackChain st.cfg S st.stack →
    (popLoopFuel fuel st).cfg = st.cfg ∧
    (popLoopFuel fuel st).busMax = st.busMax ∧
    (popLoopFuel fuel st).function = 0 ∧
    ((popLoopFuel fuel st).isFinish = false →
      (popLoopFuel fuel st).stack ≠ [] ∧
      StackChain st.cfg S (popLoopFuel fuel st).stack ∧
      stackWeight (popLoopFuel fuel st).stack < stackWeight st.stack) := by
  induction fuel with
  | zero => intro st S hlen; omega
  | succ n ih =>
    intro st S hlen hf0 hch
    rw [popLoopFuel]
    cases hs : st.stack with
    | nil =>
      dsimp only
      refine ⟨rfl, rfl, hf0, fun hfin => ?_⟩
      cases hfin
    | cons top rest =>
      dsimp only
      rw [hs] at hch hlen
      obtain ⟨hdev, hsub, hsec, hlink, hrest⟩ := hch
      by_cases hd : top.device = MAX_DEVICE
      · rw [if_pos hd]
        have hlen2 : rest.length < n := by
          simp at hlen; omega
        have := ih ⟨st.cfg, st.segment, rest, st.busMax, 0,
            st.isMultipleFunction,
            ((top.bridge.busNumber st.cfg).subordinate = st.busMax)⟩ S hlen2 rfl hrest
        refine ⟨this.1, this.2.1, this.2.2.1, fun hfin => ?_⟩
        obtain ⟨hne, hch2, hw⟩ := this.2.2.2 hfin
        refine ⟨hne, hch2, ?_⟩
        calc stackWeight _ < stackWeight rest := hw
          _ ≤ stackWeight (top :: rest) := by
              rw [stackWeight]; omega
      · rw [if_neg hd]
        refine ⟨rfl, rfl, hf0, fun _ => ?_⟩
        refine ⟨by simp, ?_, ?_⟩
        · refine ⟨?_, hsub, hsec, hlink, hrest⟩
          show top.device + 1 ≤ 31
          rw [MAX_DEVICE] at hd
          omega
        · show 32 - (top.device + 1) + stackWeight rest <
            32 - top.device + stackWeight rest
          rw [MAX_DEVICE] at hd
          omega

theorem engMeasure_cons (st : EngineState) (f : Frame) (rest : List Frame)
    (hs : st.stack = f :: rest) :
    engMeasure st = (st.busMax + 1 - frameSub st.cfg f) * 300 +
      stackWeight (f :: rest) * 9 + (8 - st.function) := by
  unfold engMeasure
  rw [hs]

theorem stepNext_none_progress (st : EngineState) (S : Nat)
    (hfunc : st.function ≤ 7) (hch : StackChain st.cfg S st.stack)
    (hne : st.stack ≠ []) (hfin : st.isFinish = false) :
    (stepNext none st).cfg = st.cfg ∧
    (stepNext none st).busMax = st.busMax ∧
    ((stepNext none st).isFinish = false →
      (stepNext none st).stack ≠ [] ∧
      (stepNext none st).function ≤ 7 ∧
      StackChain st.cfg S (stepNext none st).stack ∧
      engMeasure (stepNext none st) < engMeasure st) := by
  obtain ⟨top, rest, hs⟩ := List.exists_cons_of_ne_nil hne
  have hsubtop : frameSub st.cfg top = S := by
    rw [hs] at hch; exact hch.2.1
  have hcarry : ∀ hq : stepNext none st = popLoop { st with function := 0 },
      (stepNext none st).cfg = st.cfg ∧
      (stepNext none st).busMax = st.busMax ∧
      ((stepNext none st).isFinish = false →
        (stepNext none st).stack ≠ [] ∧
        (stepNext none st).function ≤ 7 ∧
        StackChain st.cfg S (stepNext none st).stack ∧
        engMeasure (stepNext none st) < engMeasure st) := by
    intro hq
    have hpl := popLoopFuel_progress (st.stack.length + 1)
      { st with function := 0 } S (by simp) rfl hch
    rw [hq, popLoop]
    refine ⟨hpl.1, hpl.2.1, fun hfin2 => ?_⟩
    obtain ⟨hne2, hch2, hw2⟩ := hpl.2.2.2 hfin2
    refine ⟨hne2, by rw [hpl.2.2.1]; omega, hch2, ?_⟩
    obtain ⟨top2, rest2, hs2⟩ := List.exists_cons_of_ne_nil hne2
    have hsub2 : frameSub st.cfg top2 = S := by
      rw [hs2] at hch2; exact hch2.2.1
    rw [engMeasure_cons _ _ _ hs2, engMeasure_cons _ _ _ hs,
      hpl.1, hpl.2.1, hpl.2.2.1, hsub2, hsubtop]
    rw [hs2] at hw2
    rw [hs] at hw2
    dsimp only
    omega
  by_cases hmulti : st.isMultipleFunction
  · by_cases h7 : st.function = MAX_FUNCTION
    · exact hcarry (by simp [stepNext, isNextFunctionMax, hmulti, h7])
    · have heq : stepNext none st = { st with function := st.function + 1 } := by
        simp [stepNext, isNextFunctionMax, hmulti, h7]
      rw [heq]
      refine ⟨rfl, rfl, fun _ => ?_⟩
      refine ⟨by simp [hs], ?_, hch, ?_⟩
      · rw [MAX_FUNCTION] at h7
        show st.function + 1 ≤ 7
        omega
      · rw [engMeasure_cons _ top rest hs,
          engMeasure_cons { st with function := st.function + 1 } top rest hs]
        rw [MAX_FUNCTION] at h7
        show (st.busMax + 1 - frameSub st.cfg top) * 300 +
            stackWeight (top :: rest) * 9 + (8 - (st.function + 1)) < _
        omega
  · exact hcarry (by simp [stepNext, isNextFunctionMax, hmulti])

theorem getCurrentValid_cfg (st : EngineState) :
    (getCurrentValid st).2.cfg = st.cfg ∨
    ∃ v, (getCurrentValid st).2.cfg = writeCfg st.cfg st.address 0x18 v := by
  unfold getCurrentValid
  dsimp only
  split
  · left; rfl
  · split
    · left; rfl
    · split
      · left; rfl
      · split
        · left; rfl
        · right
          rw [updateBusNumber_some _ _ _ st.address rfl]
          exact ⟨_, rfl⟩
    · left; rfl
    · left; rfl

theorem bumpFrames_cfg_offne (fr : List Frame) (c : Cfg) (a2 : PciAddress)
    (off : Nat) (hoff : off ≠ 0x18) :
    (bumpFrames fr c).2 a2 off = c a2 off :=
  bumpFrames_cfg_other fr c a2 off fun _ _ _ _ hc => hoff hc.2

theorem engineStep_cfg_off (st : EngineState) (a2 : PciAddress) (off : Nat)
    (hoff : off ≠ 0x18) : (engineStep st).2.cfg a2 off = st.cfg a2 off := by
  have hcfg2 : (getCurrentValid st).2.cfg a2 off = st.cfg a2 off := by
    rcases getCurrentValid_cfg st with h | ⟨v, h⟩
    · rw [h]
    · rw [h]
      exact writeCfg_other _ _ _ _ _ _ fun hc => hoff hc.2
  unfold engineStep
  rcases hg : getCurrentValid st with ⟨r, st2⟩
  rw [hg] at hcfg2
  match r with
  | none =>
    dsimp only
    rw [stepNext_none_cfg]
    exact hcfg2
  | some (.endpoint a) =>
    dsimp only
    rw [stepNext_none_cfg]
    exact hcfg2
  | some (.bridge b) =>
    dsimp only
    rw [stepNext_some_def]
    dsimp only
    rw [bumpFrames_cfg_offne _ _ _ _ hoff]
    exact hcfg2
  | some .panicked =>
    dsimp only
    exact hcfg2

theorem goodCfg_step (st : EngineState) (hg : GoodCfg st.cfg) :
    GoodCfg (engineStep st).2.cfg := by
  intro a hv
  have h0 : (engineStep st).2.cfg a 0 = st.cfg a 0 :=
    engineStep_cfg_off st a 0 (by norm_num)
  have hc : (engineStep st).2.cfg a 0x0C = st.cfg a 0x0C :=
    engineStep_cfg_off st a 0x0C (by norm_num)
  have hveq : vendorId (engineStep st).2.cfg a = vendorId st.cfg a := by
    unfold vendorId; rw [h0]
  have hkeq : headerKindOf (engineStep st).2.cfg a = headerKindOf st.cfg a := by
    unfold headerKindOf headerTypeBits; rw [hc]
  rw [hkeq]
  exact hg a (hveq ▸ hv)

theorem stackWeight_of_forall₂ {R : Frame → Frame → Prop}
    {fr fr' : List Frame} (h : List.Forall₂ R fr fr')
    (hdev : ∀ f f', R f f' → f'.device = f.device) :
    stackWeight fr' = stackWeight fr := by
  induction h with
  | nil => rfl
  | cons hR hrest ih => simp [stackWeight, ih, hdev _ _ hR]

theorem stackChain_sub_mem (c : Cfg) (S : Nat) (fr : List Frame)
    (hch : StackChain c S fr) : ∀ g ∈ fr, frameSub c g = S := by
  induction fr with
  | nil => intro g hg; cases hg
  | cons f r ih =>
    intro g hg
    rcases List.mem_cons.mp hg with h | h
    · subst h; exact hch.2.1
    · exact ih hch.2.2.2.2 g h

theorem engineStep_progress (st : EngineState)
    (hfin : st.isFinish = false) (hinv : EngineInv st) (hgood : GoodCfg st.cfg) :
    (engineStep st).1 ≠ .panicked ∧
    (engineStep st).2.busMax = st.busMax ∧
    ((engineStep st).2.isFinish = false →
      EngineInv (engineStep st).2 ∧
      engMeasure (engineStep st).2 < engMeasure st) := by
  obtain ⟨S, hSle, hch⟩ := hinv.chain
  obtain ⟨top, rest, hs⟩ := List.exists_cons_of_ne_nil hinv.active
  have haddr : st.address =
      ⟨st.segment, frameSec st.cfg top, top.device, st.function⟩ := by
    unfold EngineState.address
    rw [hs]
    rfl
  have hskipLike : ∀ st1 : EngineState,
      st1.cfg = st.cfg → st1.stack = st.stack → st1.busMax = st.busMax →
      st1.function = st.function → st1.isFinish = st.isFinish →
      (stepNext none st1).busMax = st.busMax ∧
      ((stepNext none st1).isFinish = false →
        EngineInv (stepNext none st1) ∧
        engMeasure (stepNext none st1) < engMeasure st) := by
    intro st1 hcfg hstk hbm hfn hfi
    have hch1 : StackChain st1.cfg S st1.stack := by rw [hcfg, hstk]; exact hch
    have hsp := stepNext_none_progress st1 S (by rw [hfn]; exact hinv.func) hch1
      (by rw [hstk]; exact hinv.active) (by rw [hfi]; exact hfin)
    refine ⟨by rw [hsp.2.1, hbm], fun hf2 => ?_⟩
    obtain ⟨hne2, hfn2, hch2, hm2⟩ := hsp.2.2 hf2
    have hmeq : engMeasure st1 = engMeasure st := by
      obtain ⟨t1, r1, hs1⟩ := List.exists_cons_of_ne_nil (hstk ▸ hinv.active)
      rw [engMeasure_cons st1 t1 r1 hs1,
        engMeasure_cons st t1 r1 (by rw [← hstk]; exact hs1), hcfg, hbm, hfn]
    refine ⟨⟨hfn2, by rw [hsp.2.1, hbm]; exact hinv.bm, hne2, S,
      by rw [hsp.2.1, hbm]; exact hSle, by rw [hsp.1]; exact hch2⟩, ?_⟩
    rw [← hmeq]
    exact hm2
  by_cases hv : vendorId st.cfg st.address = 0xFFFF
  · have hgcv : getCurrentValid st = (none, st) := by
      unfold getCurrentValid
      rw [if_pos hv]
    have he : engineStep st = (.skipped, stepNext none st) := by
      unfold engineStep
      rw [hgcv]
    rw [he]
    have := hskipLike st rfl rfl rfl rfl rfl
    exact ⟨by simp, this.1, this.2⟩
  · rcases hgood st.address hv with hk | hk
    · -- an endpoint: yield and advance as a non-bridge
      have hgcv : getCurrentValid st = (some (.endpoint st.address),
          { st with isMultipleFunction := hasMultipleFunctions st.cfg st.address }) := by
        unfold getCurrentValid
        rw [if_neg hv]
        dsimp only
        rw [hk]
      have he : engineStep st = (.yielded st.address, stepNext none
          { st with isMultipleFunction := hasMultipleFunctions st.cfg st.address }) := by
        unfold engineStep
        rw [hgcv]
      rw [he]
      have := hskipLike
        { st with isMultipleFunction := hasMultipleFunctions st.cfg st.address }
        rfl rfl rfl rfl rfl
      exact ⟨by simp, this.1, this.2⟩
    · -- a bridge
      have hsub : frameSub st.cfg top = S := by
        rw [hs] at hch; exact hch.2.1
      by_cases hSb : (top.bridge.busNumber st.cfg).subordinate = st.busMax
      · -- window exhausted: treated as absent
        have hgcv : getCurrentValid st = (none,
            { st with isMultipleFunction := hasMultipleFunctions st.cfg st.address }) := by
          unfold getCurrentValid
          rw [if_neg hv]
          dsimp only
          rw [hk, hs]
          dsimp only
          rw [if_pos hSb]
        have he : engineStep st = (.skipped, stepNext none
            { st with isMultipleFunction := hasMultipleFunctions st.cfg st.address }) := by
          unfold engineStep
          rw [hgcv]
        rw [he]
        have := hskipLike
          { st with isMultipleFunction := hasMultipleFunctions st.cfg st.address }
          rfl rfl rfl rfl rfl
        exact ⟨by simp, this.1, this.2⟩
      · -- program the bridge and descend
        have hSlt : S < st.busMax := by
          rw [frameSub] at hsub
          omega
        have hgcv : getCurrentValid st =
            (some (.bridge ⟨some st.address, ⟨0, 0, 0⟩⟩),
             { st with isMultipleFunction := hasMultipleFunctions st.cfg st.address,
                       cfg := writeCfg st.cfg st.address 0x18
                         (encodeBus (st.cfg st.address 0x18)
                           ⟨st.address.bus, S + 1, S + 1⟩) }) := by
          unfold getCurrentValid
          rw [if_neg hv]
          dsimp only
          rw [hk, hs]
          dsimp only
          rw [if_neg hSb]
          rw [updateBusNumber_some _ _ _ st.address rfl]
          dsimp only
          rw [frameSub] at hsub
          rw [hsub]
        have he : engineStep st = (.skipped,
            stepNext (some ⟨some st.address, ⟨0, 0, 0⟩⟩)
              { st with isMultipleFunction := hasMultipleFunctions st.cfg st.address,
                        cfg := writeCfg st.cfg st.address 0x18
                          (encodeBus (st.cfg st.address 0x18)
                            ⟨st.address.bus, S + 1, S + 1⟩) }) := by
          unfold engineStep
          rw [hgcv]
        set c2 : Cfg := writeCfg st.cfg st.address 0x18
          (encodeBus (st.cfg st.address 0x18) ⟨st.address.bus, S + 1, S + 1⟩)
          with hc2
        have hpair : FramesDistinct st.stack := stackChain_distinct _ _ _ hch
        have hbuslt : ∀ g ∈ st.stack, ∀ ga, g.bridge.address = some ga →
            ga.bus < frameSec st.cfg top := by
          intro g hg ga hga
          exact stackChain_bus_bound st.cfg S top rest (hs ▸ hch) g (hs ▸ hg) ga hga
        have haddrbus : st.address.bus = frameSec st.cfg top := by rw [haddr]
        have hdist : ∀ g ∈ st.stack, ∀ ga, g.bridge.address = some ga →
            ga ≠ st.address := by
          intro g hg ga hga hcontra
          have := hbuslt g hg ga hga
          rw [hcontra, haddrbus] at this
          exact lt_irrefl _ this
        have hbn2 : ∀ g ∈ st.stack, g.bridge.busNumber c2 = g.bridge.busNumber st.cfg := by
          intro g hg
          refine busNumber_writeCfg _ _ _ _ _ ?_
          intro ga hga hcontra
          exact hdist g hg ga hga hcontra.1
        have hch2 : StackChain c2 S st.stack :=
          stackChain_congr st.cfg c2 S st.stack hch fun g hg => hbn2 g hg
        have hbound2 : ∀ g ∈ st.stack, (g.bridge.busNumber c2).subordinate + 1 < 256 := by
          intro g hg
          rw [hbn2 g hg]
          have hgs := stackChain_sub_mem st.cfg S st.stack hch g hg
          rw [frameSub] at hgs
          rw [hgs]
          have := hinv.bm
          omega
        have habuslt : st.address.bus < 256 := by
          rw [haddrbus]
          have hsec : frameSec st.cfg top ≤ S := by
            rw [hs] at hch; exact hch.2.2.1
          have := hinv.bm
          omega
        have hff := bumpFrames_frames (top :: rest) c2 (hs ▸ hpair)
          (by rw [← hs]; exact hbound2)
        obtain ⟨t2, r2, hX⟩ : ∃ t2 r2,
            (bumpFrames (top :: rest) c2).1 = t2 :: r2 := by
          rw [bumpFrames_cons]; exact ⟨_, _, rfl⟩
        rw [hX] at hff
        have hR : t2.device = top.device ∧
            t2.bridge.address = top.bridge.address ∧
            t2.bridge.busNumber (bumpFrames (top :: rest) c2).2 =
              { top.bridge.busNumber c2 with
                subordinate := (top.bridge.busNumber c2).subordinate + 1 } := by
          cases hff with
          | cons h1 h2 => exact h1
        have hrest2 : List.Forall₂ (fun f f' =>
            f'.device = f.device ∧ f'.bridge.address = f.bridge.address ∧
            f'.bridge.busNumber (bumpFrames (top :: rest) c2).2 =
              { f.bridge.busNumber c2 with
                subordinate := (f.bridge.busNumber c2).subordinate + 1 })
            rest r2 := by
          cases hff with
          | cons h1 h2 => exact h2
        have htopmem : top ∈ st.stack := by
          rw [hs]; exact List.mem_cons_self _ _
        have hcell : (bumpFrames (top :: rest) c2).2 st.address 0x18 =
            c2 st.address 0x18 := by
          refine bumpFrames_cfg_other _ _ _ _ ?_
          intro g hg ga hga hcontra
          exact hdist g (hs ▸ hg) ga hga hcontra.1.symm
        have hnewbn : (CfgBridge.busNumber ⟨some st.address, ⟨0, 0, 0⟩⟩
            (bumpFrames (top :: rest) c2).2) = ⟨st.address.bus, S + 1, S + 1⟩ := by
          rw [busNumber_of_some _ _ st.address rfl, hcell, hc2, writeCfg_same,
            decodeBus_encodeBus]
          have hbm := hinv.bm
          simp only [BusNumber.mk.injEq]
          exact ⟨Nat.mod_eq_of_lt habuslt, Nat.mod_eq_of_lt (by omega),
            Nat.mod_eq_of_lt (by omega)⟩
        have hsubnew : frameSub (bumpFrames (top :: rest) c2).2
            ⟨⟨some st.address, ⟨0, 0, 0⟩⟩, 0⟩ = S + 1 := by
          rw [frameSub, hnewbn]
        have hsecnew : frameSec (bumpFrames (top :: rest) c2).2
            ⟨⟨some st.address, ⟨0, 0, 0⟩⟩, 0⟩ = S + 1 := by
          rw [frameSec, hnewbn]
        have hsect2 : frameSec (bumpFrames (top :: rest) c2).2 t2 =
            frameSec st.cfg top := by
          rw [frameSec, hR.2.2]
          show (top.bridge.busNumber c2).secondary = _
          rw [hbn2 top htopmem]
          rfl
        have hchain3 : StackChain (bumpFrames (top :: rest) c2).2 (S + 1)
            (⟨⟨some st.address, ⟨0, 0, 0⟩⟩, 0⟩ :: t2 :: r2) := by
          have hchB : StackChain (bumpFrames (top :: rest) c2).2 (S + 1) (t2 :: r2) := by
            have := stackChain_of_forall₂ c2 (bumpFrames (top :: rest) c2).2 S
              (top :: rest) (t2 :: r2) (hs ▸ hch2)
              (List.Forall₂.cons hR hrest2)
            exact this
          refine ⟨by norm_num, hsubnew, by rw [hsecnew], ?_, hchB⟩
          refine ⟨⟨st.address, rfl, ?_⟩, ?_⟩
          · rw [hsect2, haddrbus]
          · rw [hsect2, hsecnew]
            have hsec : frameSec st.cfg top ≤ S := by
              rw [hs] at hch; exact hch.2.2.1
            omega
        have hwq : stackWeight r2 = stackWeight rest :=
          stackWeight_of_forall₂ hrest2 fun f f' h => h.1
        rw [he, stepNext_some_def]
        dsimp only
        rw [hs, hX]
        refine ⟨by simp, rfl, fun _ => ?_⟩
        refine ⟨⟨by norm_num, hinv.bm, by simp, S + 1,
          Nat.succ_le_of_lt hSlt, hchain3⟩, ?_⟩
        rw [engMeasure_cons _ ⟨⟨some st.address, ⟨0, 0, 0⟩⟩, 0⟩ (t2 :: r2) rfl,
          engMeasure_cons st top rest hs]
        dsimp only
        rw [hsubnew]
        show (st.busMax + 1 - (S + 1)) * 300 +
            (32 - 0 + (32 - t2.device + stackWeight r2)) * 9 + (8 - 0) <
          (st.busMax + 1 - frameSub st.cfg top) * 300 +
            (32 - top.device + stackWeight rest) * 9 + (8 - st.function)
        rw [hwq, hR.1, hsub]
        have hfn := hinv.func
        omega

theorem run_terminates : ∀ (fuel : Nat) (st : EngineState),
    GoodCfg st.cfg → EngineInv st → engMeasure st + 1 < fuel →
    (run fuel st).2.1.isFinish = true ∧ (run fuel st).2.2 = false := by
  intro fuel
  induction fuel with
  | zero => intro st _ _ h; omega
  | succ n ih =>
    intro st hg hinv hm
    rw [run]
    by_cases hfin : st.isFinish = true
    · rw [if_pos hfin]
      exact ⟨hfin, rfl⟩
    · rw [if_neg hfin]
      have hfin2 : st.isFinish = false := by
        cases h : st.isFinish
        · rfl
        · exact absurd h hfin
      have hprog := engineStep_progress st hfin2 hinv hg
      have hgood2 := goodCfg_step st hg
      by_cases hf2 : (engineStep st).2.isFinish = true
      · obtain ⟨m, rfl⟩ : ∃ m, n = m + 1 := ⟨n - 1, by omega⟩
        rcases he : engineStep st with ⟨out, st2⟩
        rw [he] at hf2
        match out with
        | .panicked =>
          exfalso
          apply hprog.1
          rw [he]
        | .yielded a =>
          dsimp only
          rw [run, if_pos hf2]
          exact ⟨hf2, rfl⟩
        | .skipped =>
          dsimp only
          rw [run, if_pos hf2]
          exact ⟨hf2, rfl⟩
      · have hf2' : (engineStep st).2.isFinish = false := by
          cases h : (engineStep st).2.isFinish
          · rfl
          · exact absurd h hf2
        obtain ⟨hinv2, hlt⟩ := hprog.2.2 hf2'
        have hrec := ih (engineStep st).2 hgood2 hinv2 (by omega)
        rcases he : engineStep st with ⟨out, st2⟩
        rw [he] at hrec
        match out with
        | .panicked =>
          exfalso
          apply hprog.1
          rw [he]
        | .yielded a =>
          dsimp only
          exact hrec
        | .skipped =>
          dsimp only
          exact hrec

/-! ## Claim C3 -/

/-- C3 counterexample: the claim fails as stated on two concrete
configuration contents.  A present CardBusBridge header at (0,0,0) makes
the very first `next()` call hit `todo!()` (modelled as the panic
outcome), so the iterator never returns `None`; and with the multi-function
latch bug, the present endpoint (0,0,2) of `latchCfg` is never yielded
although enumeration finishes, refuting "each present endpoint function
exactly once". -/
theorem enumeration_claim_counterexample :
    ((run 10 (initState cardbusCfg 0 255)).2.2 = true ∧
     (run 10 (initState cardbusCfg 0 255)).1 = []) ∧
    (vendorId latchCfg ⟨0, 0, 0, 2⟩ = 0x1234 ∧
     headerKindOf latchCfg ⟨0, 0, 0, 2⟩ = .endpoint ∧
     (run 200 (initState latchCfg 0 255)).2.1.isFinish = true ∧
     (run 200 (initState latchCfg 0 255)).2.2 = false ∧
     (run 200 (initState latchCfg 0 255)).1 = [⟨0, 0, 0, 0⟩, ⟨0, 0, 0, 1⟩]) := by
  exact ⟨⟨by decide, by decide⟩, by decide, by decide, by decide, by decide,
    by decide⟩

/-- C3 (amended): for every configuration contents whose present
functions (vendor ≠ 0xFFFF) all decode as Endpoint or PciPciBridge — the
two header kinds the engine implements — and every bus range with
`bus_start ≤ 31` and `bus_max ≤ 255`, the enumeration terminates without
panicking: with the explicitly computed fuel the iterator reaches
`is_finish`, after which `next()` returns `None`; in particular, when
every configuration read returns 0xFFFFFFFF the enumeration yields zero
descriptors and then finishes. -/
theorem enumeration_terminates (c : Cfg) (busStart busMax : Nat)
    (hgood : GoodCfg c) (hbs : busStart ≤ 31) (hbm : busMax ≤ 255) :
    ((run (engMeasure (initState c busStart busMax) + 2)
        (initState c busStart busMax)).2.1.isFinish = true ∧
     (run (engMeasure (initState c busStart busMax) + 2)
        (initState c busStart busMax)).2.2 = false) ∧
    ((run 100 (initState emptyCfg 0 255)).1 = [] ∧
     (run 100 (initState emptyCfg 0 255)).2.1.isFinish = true ∧
     (run 100 (initState emptyCfg 0 255)).2.2 = false) := by
  refine ⟨?_, by decide, by decide, by decide⟩
  refine run_terminates _ _ hgood
    ⟨by show (0 : Nat) ≤ 7; norm_num, hbm,
     by simp [initState, Frame.root], 0, by omega, ?_⟩
    (by omega)
  exact ⟨hbs, rfl, Nat.le_refl 0, rfl, trivial⟩

theorem enumeration_terminates_witness :
    (run (engMeasure (initState emptyCfg 0 255) + 2)
        (initState emptyCfg 0 255)).2.1.isFinish = true ∧
    (run (engMeasure (initState emptyCfg 0 255) + 2)
        (initState emptyCfg 0 255)).2.2 = false :=
  (enumeration_terminates emptyCfg 0 255
    (fun a h => absurd (show vendorId emptyCfg a = 0xFFFF by
      unfold vendorId emptyCfg
      norm_num) h)
    (by decide) (by decide)).1
